import Mathlib

/-
Shallow embedding of the transaction dispatch and authorization subsystem of
the acp-node-privy repository (src/acpContractClientV2.ts, src/gasSponsorship.ts,
src/transferFunds utilities, src/sessionSigners/privySessionSigner.ts, src/configs.ts).

External collaborators (chain RPC provider, custodial signing service, crypto
library, contract encoder) are modelled as explicit inputs: each fallible call
the code makes is represented by its outcome (an `Except`/`Option` value or a
status), and the embedded function reproduces the code's control flow over
those outcomes.  Machine integers are exact (`Int`/`Nat`); the source works in
JavaScript `BigInt`, which is likewise exact.
-/

/-! ## FeeEstimator: `AcpContractClient.calculateGasFees` -/

/-- JavaScript `x || d` applied to an optionally-present number `x`:
`undefined` and `0` are falsy and yield the fallback `d`; any other value is
returned unchanged.  This is the operator the source uses in
`Number(this.config.priorityFeeMultiplier) || 2`,
`this.config.maxFeePerGas || maxFeePerGas` and
`this.config.maxPriorityFeePerGas || maxPriorityFeePerGas`. -/
def jsNumOr (x : Option Int) (d : Int) : Int :=
  match x with
  | none => d
  | some v => if v = 0 then d else v

/-- Embedding of `AcpContractClient.calculateGasFees` (acpContractClientV2.ts).
`liveMaxFeePerGas` / `liveMaxPriorityFeePerGas` are the values returned by
`publicClient.estimateFeesPerGas()`; the three `cfg*` arguments are the
configuration fields (`none` models an `undefined` field).  The source computes
`BigInt(overrideMaxFeePerGas) + BigInt(overrideMaxPriorityFeePerGas) *
BigInt(Math.max(0, priorityFeeMultiplier - 1))` in exact BigInt arithmetic. -/
def calculateGasFees (liveMaxFeePerGas liveMaxPriorityFeePerGas : Int)
    (cfgMaxFeePerGas cfgMaxPriorityFeePerGas cfgPriorityFeeMultiplier : Option Int) : Int :=
  let priorityFeeMultiplier := jsNumOr cfgPriorityFeeMultiplier 2
  let overrideMaxFeePerGas := jsNumOr cfgMaxFeePerGas liveMaxFeePerGas
  let overrideMaxPriorityFeePerGas := jsNumOr cfgMaxPriorityFeePerGas liveMaxPriorityFeePerGas
  overrideMaxFeePerGas + overrideMaxPriorityFeePerGas * max 0 (priorityFeeMultiplier - 1)

/-- The fee formula exactly as the spec words it (refinement target for C1,
deliberately written from the spec, not from the source):
`maxFeePerGas = (overrideMaxFee ?? liveBaseFee) +
(overridePriorityFee ?? livePriorityFee) * max(0, multiplier - 1)`,
where `??` is JavaScript nullish coalescence (only absence falls back). -/
def specMaxFeePerGas (liveBase livePriority : Int) (mo po : Option Int) (m : Int) : Int :=
  mo.getD liveBase + po.getD livePriority * max 0 (m - 1)

/-! ## DispatchRouter: `AcpContractClient.sendTransaction` -/

/-- Status field of a mined transaction receipt, as returned by
`publicClient.waitForTransactionReceipt`. -/
inductive TxStatus
  | success
  | reverted
deriving DecidableEq, Repr

/-- Outcomes of the external calls one `sendTransaction` dispatch can make.
`sponsoredResult` is what `gasSponsorshipManager.sendSponsoredTransaction`
resolves to (it never rejects: `null` models a sponsorship failure);
`sponsoredReceiptStatus` is the status of the mined receipt for the sponsored
hash; the remaining fields are the outcomes of the direct path's
`calculateGasFees` (fee query), `publicClient.estimateGas`,
`sessionSigner.sendTransaction` and the direct receipt wait. -/
structure DispatchEnv where
  sponsorshipInitialized : Bool
  sponsoredResult : Option Nat
  sponsoredReceiptStatus : TxStatus
  feeEstimation : Except String Int
  gasEstimation : Except String Nat
  directSubmission : Except String Nat
  directReceiptStatus : TxStatus
deriving Repr

/-- The direct ("regular transaction flow") tail of
`AcpContractClient.sendTransaction`: fee calculation, gas estimation,
submission through the session signer, receipt wait; a receipt whose status is
not `'success'` makes it throw `new Error('Transaction failed')`.  The second
component counts how many times `sessionSigner.sendTransaction` was invoked
(direct broadcast attempts). -/
def directPath (env : DispatchEnv) : Except String Nat × Nat :=
  match env.feeEstimation with
  | .error e => (.error e, 0)
  | .ok _ =>
    match env.gasEstimation with
    | .error e => (.error e, 0)
    | .ok _ =>
      match env.directSubmission with
      | .error e => (.error e, 1)
      | .ok h =>
        if env.directReceiptStatus = .success then (.ok h, 1)
        else (.error "Transaction failed", 1)

/-- Embedding of `AcpContractClient.sendTransaction` (acpContractClientV2.ts).
If `forceEOA` is false and the sponsorship manager is initialized, it first
tries the sponsored path; a sponsored hash whose receipt confirms `'success'`
is returned as-is, and any sponsorship failure (no hash, or a non-success
receipt) falls through to `directPath`.  The second component again counts
direct broadcast attempts. -/
def sendTransaction (env : DispatchEnv) (forceEOA : Bool) : Except String Nat × Nat :=
  if !forceEOA && env.sponsorshipInitialized then
    match env.sponsoredResult with
    | some h =>
      if env.sponsoredReceiptStatus = .success then (.ok h, 0)
      else directPath env
    | none => directPath env
  else directPath env

/-! ## Sponsored path: `GasSponsorshipManager.sendSponsoredTransaction` -/

/-- `jsIncludes` on character lists: does `pat` occur contiguously in `hay`? -/
def jsIncludesAux (hay pat : List Char) : Bool :=
  match hay with
  | [] => pat.isEmpty
  | _ :: t => pat.isPrefixOf hay || jsIncludesAux t pat

/-- JavaScript `s.includes(pat)`: substring containment. -/
def jsIncludes (s pat : String) : Bool := jsIncludesAux s.toList pat.toList

/-- The error classification in `sendSponsoredTransaction`'s catch block:
`error.message?.includes('AA25') || error.message?.includes('nonce')`. -/
def isNonceConflictError (msg : String) : Bool := jsIncludes msg "AA25" || jsIncludes msg "nonce"

/-- Outcome of one `smartAccountClient.sendTransaction` call: a hash, or a
rejection carrying the error message the catch block inspects. -/
inductive AttemptResult
  | ok (hash : Nat)
  | err (message : String)
deriving DecidableEq, Repr

/-- What one `sendSponsoredTransaction` call did: the value the promise
resolves to (`none` models `resolve(null)`), the number of
`smartAccountClient.sendTransaction` submission attempts it made, and the
fixed backoff (ms) inserted before a retry (0 when no retry happened). -/
structure SponsoredOutcome where
  result : Option Nat
  sendAttempts : Nat
  retryDelayMs : Nat
deriving DecidableEq, Repr

/-- Embedding of `GasSponsorshipManager.sendSponsoredTransaction`
(gasSponsorship.ts).  With no smart-account client it resolves `null` at once.
Otherwise it submits; on an error whose message matches the nonce-conflict
class it waits 2000 ms and retries exactly once, resolving the retry's hash or
`null`; on any other error it resolves `null` without retrying.  It never
rejects. -/
def sendSponsoredTransaction (hasSmartAccountClient : Bool)
    (firstAttempt retryAttempt : AttemptResult) : SponsoredOutcome :=
  if !hasSmartAccountClient then ⟨none, 0, 0⟩
  else
    match firstAttempt with
    | .ok h => ⟨some h, 1, 0⟩
    | .err msg =>
      if isNonceConflictError msg then
        match retryAttempt with
        | .ok h => ⟨some h, 2, 2000⟩
        | .err _ => ⟨none, 2, 2000⟩
      else ⟨none, 1, 0⟩

/-! ## Job-id recovery: `AcpContractClient.getJobIdFromTx` / `createJob` -/

/-- One entry of `receipt.logs`: the emitting contract address and the raw
`data` payload (modelled as its byte sequence). -/
structure EventLog where
  address : String
  data : List Nat
deriving DecidableEq, Repr

/-- JavaScript `String.prototype.toLowerCase` (character-wise lowering). -/
def jsToLowerCase (s : String) : String := String.mk (s.toList.map Char.toLower)

/-- viem's `fromHex(data, "number")`: big-endian integer value of the bytes. -/
def fromHexNumber (bytes : List Nat) : Nat := bytes.foldl (fun acc b => acc * 256 + b) 0

/-- Embedding of `AcpContractClient.getJobIdFromTx`: find the first receipt log
whose `address` equals the configured contract address case-insensitively;
throw `"Failed to get contract logs"` when there is none, otherwise decode the
job id from that log's data. -/
def getJobIdFromTx (contractAddress : String) (logs : List EventLog) : Except String Nat :=
  match logs.find? (fun l => jsToLowerCase l.address == jsToLowerCase contractAddress) with
  | some contractLog => .ok (fromHexNumber contractLog.data)
  | none => .error "Failed to get contract logs"

/-- The tail of `AcpContractClient.createJob` after its dispatch succeeded with
hash `txHash`: recover the job id from the receipt's logs and return
`{ txHash, jobId }`. -/
def createJobResult (txHash : Nat) (contractAddress : String) (logs : List EventLog) :
    Except String (Nat × Nat) :=
  (getJobIdFromTx contractAddress logs).map (fun jobId => (txHash, jobId))

/-! ## Batch dispatch: `AcpContractClient.sendBatchTransactions` -/

/-- The sequential loop of `sendBatchTransactions`, over the list of outcomes
of the per-request `this.sendTransaction` calls.  `hashes` is the accumulator
of hashes pushed so far (most recent first, reversed on return, so the 1-based
index in the error message is `hashes.length + 1`).  The second component
counts how many requests were actually submitted. -/
def sendBatchAux : List (Except String Nat) → List Nat → Except String (List Nat) × Nat
  | [], hashes => (.ok hashes.reverse, 0)
  | outcome :: rest, hashes =>
    match outcome with
    | .ok h =>
      let r := sendBatchAux rest (h :: hashes)
      (r.1, r.2 + 1)
    | .error e =>
      (.error ("Batch failed at transaction " ++ toString (hashes.length + 1) ++ ": " ++ e), 1)

/-- Embedding of `AcpContractClient.sendBatchTransactions`: run the requests
left to right, abort on the first failure, return the hashes in request
order. -/
def sendBatchTransactions (outcomes : List (Except String Nat)) : Except String (List Nat) × Nat :=
  sendBatchAux outcomes []

/-! ## Fund transfers: `transferFunds` / `transferAllBalance` -/

/-- The calldata a transfer puts on the wire: `'0x'` for a native transfer, or
an ERC-20 `transfer(recipient, amount)` call encoded by the external contract
encoder (kept symbolic, as the encoder is an external collaborator). -/
inductive CallData
  | empty
  | erc20Transfer (recipient : String) (amount : Nat)
deriving DecidableEq, Repr

/-- The transaction request handed to `sessionSigner.sendTransaction`. -/
structure TxCall where
  toAddress : String
  value : Nat
  callData : CallData
deriving DecidableEq, Repr

/-- Embedding of the standalone `transferFunds` helper.  `send` is the session
signer's `sendTransaction` (hash oracle).  Returns the hash the signer gave
back, unchanged, together with the list of transactions actually sent.  The
source branches on `isNativeToken || !tokenAddress`. -/
def transferFunds (send : TxCall → Nat) (toAddress : String) (amount : Nat)
    (tokenAddress : Option String) (isNativeToken : Bool) : Nat × List TxCall :=
  match tokenAddress with
  | none =>
    let call : TxCall := ⟨toAddress, amount, .empty⟩
    (send call, [call])
  | some token =>
    if isNativeToken then
      let call : TxCall := ⟨toAddress, amount, .empty⟩
      (send call, [call])
    else
      let call : TxCall := ⟨token, 0, .erc20Transfer toAddress amount⟩
      (send call, [call])

/-- Embedding of the standalone `transferAllBalance` helper.  `balance` is the
value `getBalance` fetched.  A zero balance, or a native balance not exceeding
the gas reserve, throws before anything is sent; otherwise it delegates to
`transferFunds` with `isNativeToken := !tokenAddress`. -/
def transferAllBalance (send : TxCall → Nat) (balance : Nat) (toAddress : String)
    (tokenAddress : Option String) (keepGasReserve : Nat) :
    Except String (Nat × List TxCall) :=
  if balance = 0 then .error "No balance to transfer"
  else
    if tokenAddress.isNone && decide (0 < keepGasReserve) then
      if balance ≤ keepGasReserve then .error "Balance is less than or equal to gas reserve"
      else .ok (transferFunds send toAddress (balance - keepGasReserve) tokenAddress tokenAddress.isNone)
    else .ok (transferFunds send toAddress balance tokenAddress tokenAddress.isNone)

/-! ## Authorization signing: `PrivySessionSigner.generateAuthorizationSignature`
  and `PrivySessionSigner.sendTransactionDirectAPI` -/

/-- Classification of the configured `sessionSignerPrivateKey` after the
`replace(/\\n/g, '\n')` normalization, by how the crypto library treats it:
a PEM key that parses, a PEM-looking input `crypto` rejects, a
`wallet-auth:`-prefixed base64 DER blob whose DER decodes, one whose DER does
not decode, or the empty string (which `extractPrivateKey` rejects). -/
inductive KeyMaterial
  | pemValid
  | pemInvalid
  | walletAuthValid
  | walletAuthInvalidDer
  | emptyKey
deriving DecidableEq, Repr

/-- `true` exactly when the key parses as neither a PEM key nor a
`wallet-auth:` base64 DER blob (the claim's "unparseable" class). -/
def keyUnparseable : KeyMaterial → Bool
  | .pemInvalid => true
  | .walletAuthInvalidDer => true
  | .emptyKey => true
  | _ => false

/-- The body of `generateAuthorizationSignature`'s `try` block: build and
canonicalize the payload, normalize the key (`wallet-auth:` DER is converted
to PEM via `crypto.createPrivateKey`, which throws on bad DER), and sign
(`sign.sign` throws on a key the library cannot parse).  `sig` is the crypto
library's signing function on the keys it accepts, kept abstract. -/
def tryGenerateSignature (sig : KeyMaterial → String) : KeyMaterial → Except String String
  | .emptyKey => .error "Session signer private key is required"
  | .walletAuthInvalidDer => .error "Failed to create private key from DER"
  | .pemInvalid => .error "Unparseable key material"
  | .pemValid => .ok (sig .pemValid)
  | .walletAuthValid => .ok (sig .walletAuthValid)

/-- Embedding of `PrivySessionSigner.generateAuthorizationSignature`
(privySessionSigner.ts): the whole `try` block is wrapped in a `catch` that
logs the error and returns `undefined` — it never throws. -/
def generateAuthorizationSignature (sig : KeyMaterial → String) (k : KeyMaterial) :
    Option String :=
  match tryGenerateSignature sig k with
  | .ok s => some s
  | .error _ => none

/-- Observable behaviour of one `sendTransactionDirectAPI` call: the value of
the `privy-authorization-signature` header (absent when the generator returned
`undefined`), whether the `fetch` network call was made, and the parsed
result. -/
structure DirectApiTrace where
  signatureHeader : Option String
  fetchAttempted : Bool
  response : Except String Nat
deriving Repr

/-- Embedding of `PrivySessionSigner.sendTransactionDirectAPI`
(privySessionSigner.ts): it builds the request body, generates the
authorization signature, adds the signature header only `if (authSignature)`,
and then always performs the `fetch`.  `fetchOk` models `response.ok`;
`responseHash` models the hash extracted from the response JSON. -/
def sendTransactionDirectAPI (sig : KeyMaterial → String) (k : KeyMaterial)
    (fetchOk : Bool) (responseHash : Option Nat) : DirectApiTrace :=
  let authSignature := generateAuthorizationSignature sig k
  { signatureHeader := authSignature
    fetchAttempted := true
    response :=
      if fetchOk then
        match responseHash with
        | some h => .ok h
        | none => .error "Transaction hash not found in Privy response"
      else .error "Privy transaction failed" }

/-! ## Canonical authorization payload: `sortObject` and `JSON.stringify`
  (identical copies in privySessionSigner.ts and authKeyManager.ts) -/

/-- JSON values, as produced by `JSON.parse` and consumed by `sortObject`:
null, booleans, numbers (the payloads in this code are integers), strings,
arrays, and objects as ordered key/value lists. -/
inductive Json
  | null
  | bool (b : Bool)
  | num (n : Int)
  | str (s : String)
  | arr (elements : List Json)
  | obj (fields : List (String × Json))
deriving Repr

/-- Stable insertion of one key/value pair into a key-sorted field list,
by key only — the list-sorting half of `Object.keys(obj).sort()`. -/
def insertByKey (p : String × Json) : List (String × Json) → List (String × Json)
  | [] => [p]
  | q :: qs => if p.1 ≤ q.1 then p :: q :: qs else q :: insertByKey p qs

/-- Sort a field list by key (insertion sort; stable, total, deterministic),
modelling `Object.keys(obj).sort()` followed by re-insertion in that order. -/
def sortByKey : List (String × Json) → List (String × Json)
  | [] => []
  | p :: ps => insertByKey p (sortByKey ps)

mutual

/-- Embedding of `sortObject` (privySessionSigner.ts / authKeyManager.ts):
primitives are returned unchanged, arrays map `sortObject` preserving element
order, objects sort their recursively-processed fields by key. -/
def sortObject : Json → Json
  | .null => .null
  | .bool b => .bool b
  | .num n => .num n
  | .str s => .str s
  | .arr xs => .arr (sortObjectList xs)
  | .obj fs => .obj (sortByKey (sortObjectFields fs))

/-- `sortObject` mapped over an array's elements (order preserved). -/
def sortObjectList : List Json → List Json
  | [] => []
  | x :: xs => sortObject x :: sortObjectList xs

/-- `sortObject` mapped over an object's values (keys untouched). -/
def sortObjectFields : List (String × Json) → List (String × Json)
  | [] => []
  | (k, v) :: fs => (k, sortObject v) :: sortObjectFields fs

end

mutual

/-- Single-line `JSON.stringify` of a value (string escaping is not modelled;
it is injective on the characters these payloads use and plays no role in the
properties proved here). -/
def stringifyJson : Json → String
  | .null => "null"
  | .bool true => "true"
  | .bool false => "false"
  | .num n => toString n
  | .str s => "\"" ++ s ++ "\""
  | .arr xs => "[" ++ stringifyList xs ++ "]"
  | .obj fs => "\x7b" ++ stringifyFields fs ++ "\x7d"

/-- Comma-separated serialization of array elements. -/
def stringifyList : List Json → String
  | [] => ""
  | [x] => stringifyJson x
  | x :: y :: xs => stringifyJson x ++ "," ++ stringifyList (y :: xs)

/-- Comma-separated serialization of object fields. -/
def stringifyFields : List (String × Json) → String
  | [] => ""
  | [(k, v)] => "\"" ++ k ++ "\":" ++ stringifyJson v
  | (k, v) :: f :: fs => "\"" ++ k ++ "\":" ++ stringifyJson v ++ "," ++ stringifyFields (f :: fs)

end

/-- The exact string the code signs: `JSON.stringify(sortObject(payload))`. -/
def canonicalJsonString (j : Json) : String := stringifyJson (sortObject j)

/-- No string occurs twice in the list (JavaScript objects cannot carry
duplicate keys, so every object a payload contains satisfies this). -/
def nodupKeys : List String → Bool
  | [] => true
  | k :: ks => !(ks.contains k) && nodupKeys ks

mutual

/-- Well-formedness of a JSON value as `JSON.parse` would produce it: every
object's key list is duplicate-free, recursively. -/
def wfJson : Json → Bool
  | .null => true
  | .bool _ => true
  | .num _ => true
  | .str _ => true
  | .arr xs => wfJsonList xs
  | .obj fs => nodupKeys (fs.map Prod.fst) && wfJsonFields fs

/-- `wfJson` over an array's elements. -/
def wfJsonList : List Json → Bool
  | [] => true
  | x :: xs => wfJson x && wfJsonList xs

/-- `wfJson` over an object's values. -/
def wfJsonFields : List (String × Json) → Bool
  | [] => true
  | (_, v) :: fs => wfJson v && wfJsonFields fs

end

mutual

/-- `KeyPerm x y`: `y` differs from `x` only by the order in which object keys
are listed, at any nesting depth (array element order is preserved and leaf
values are equal). -/
def KeyPerm : Json → Json → Prop
  | .null, .null => True
  | .bool a, .bool b => a = b
  | .num a, .num b => a = b
  | .str a, .str b => a = b
  | .arr xs, .arr ys => KeyPermList xs ys
  | .obj fs, .obj gs => ∃ fs', KeyPermFields fs fs' ∧ fs'.Perm gs
  | _, _ => False

/-- Pointwise `KeyPerm` on arrays (order preserved). -/
def KeyPermList : List Json → List Json → Prop
  | [], [] => True
  | x :: xs, y :: ys => KeyPerm x y ∧ KeyPermList xs ys
  | _, _ => False

/-- Pointwise `KeyPerm` on field lists: same keys in the same order, values
related by `KeyPerm`. -/
def KeyPermFields : List (String × Json) → List (String × Json) → Prop
  | [], [] => True
  | (k, v) :: fs, (k', w) :: gs => k = k' ∧ KeyPerm v w ∧ KeyPermFields fs gs
  | _, _ => False

end

/-! ## Claim C1: the fee formula -/

/-- Claim C1 counterexample.  The claim's formula fails on the code in two
ways, both due to JavaScript `||` treating `0` as absent: a configured
multiplier of 0 is coerced to the default 2 (`Number(m) || 2`), so the result
gains a full priority-fee term where the claimed formula's `max(0, -1) = 0`
adds nothing; and a configured override max fee of 0 falls back to the live
base fee where the claimed `0 ?? b = 0` keeps it. -/
theorem C1_counterexample :
    calculateGasFees 10 5 none none (some 0) ≠ specMaxFeePerGas 10 5 none none 0 ∧
    calculateGasFees 10 5 (some 0) none (some 2) ≠ specMaxFeePerGas 10 5 (some 0) none 2 := by
  decide

/-- Claim C1 (amended): for a configured multiplier `m ≥ 1` and configured
overrides that are absent or nonzero, `calculateGasFees` returns
`(mo ?? b) + (po ?? p) * max(0, m - 1)` in exact integer arithmetic, and for
`m = 1` the result is the override max fee (or live base fee) unchanged. -/
theorem C1_amended_gas_fee_formula (b p : Int) (mo po : Option Int) (m : Int)
    (hm : 1 ≤ m)
    (hmo : ∀ v, mo = some v → v ≠ 0)
    (hpo : ∀ v, po = some v → v ≠ 0) :
    calculateGasFees b p mo po (some m) = specMaxFeePerGas b p mo po m ∧
    (m = 1 → calculateGasFees b p mo po (some m) = mo.getD b) := by
  have hm0 : ¬ m = 0 := by omega
  rcases mo with _ | u
  · rcases po with _ | v
    · constructor
      · simp [calculateGasFees, specMaxFeePerGas, jsNumOr, hm0]
      · intro h1; subst h1; simp [calculateGasFees, jsNumOr]
    · have hv := hpo v rfl
      constructor
      · simp [calculateGasFees, specMaxFeePerGas, jsNumOr, hm0, hv]
      · intro h1; subst h1; simp [calculateGasFees, jsNumOr, hv]
  · have hu := hmo u rfl
    rcases po with _ | v
    · constructor
      · simp [calculateGasFees, specMaxFeePerGas, jsNumOr, hm0, hu]
      · intro h1; subst h1; simp [calculateGasFees, jsNumOr, hu]
    · have hv := hpo v rfl
      constructor
      · simp [calculateGasFees, specMaxFeePerGas, jsNumOr, hm0, hu, hv]
      · intro h1; subst h1; simp [calculateGasFees, jsNumOr, hu, hv]

/-- Witness for C1 (amended) at `b=3, p=4, mo=some 7, po=none, m=1`. -/
theorem C1_amended_witness :
    calculateGasFees 3 4 (some 7) none (some 1) = specMaxFeePerGas 3 4 (some 7) none 1 ∧
    ((1:Int) = 1 → calculateGasFees 3 4 (some 7) none (some 1) = (some (7:Int)).getD 3) :=
  C1_amended_gas_fee_formula 3 4 (some 7) none 1 (by decide)
    (by intro v h; cases h; decide) (by intro v h; exact Option.noConfusion h)

/-! ## Claim C7: unparseable key material -/

/-- Claim C7 counterexample.  With key material that parses as neither PEM nor
a `wallet-auth:` DER blob, `generateAuthorizationSignature` does not fail: its
catch block swallows the crypto error and returns `undefined`, and
`sendTransactionDirectAPI` still performs the network call — without the
`privy-authorization-signature` header — contradicting both "fails with
KeyFormatError immediately" and "the request is not sent without a
signature". -/
theorem C7_counterexample :
    generateAuthorizationSignature (fun _ => "sig") .pemInvalid = none ∧
    (sendTransactionDirectAPI (fun _ => "sig") .pemInvalid true (some 7)).fetchAttempted = true ∧
    (sendTransactionDirectAPI (fun _ => "sig") .pemInvalid true (some 7)).signatureHeader = none ∧
    (sendTransactionDirectAPI (fun _ => "sig") .pemInvalid true (some 7)).response = .ok 7 :=
  ⟨rfl, rfl, rfl, rfl⟩

/-- Claim C7 (amended): for every private-key input that parses as neither a
PEM key nor a `wallet-auth:` base64 DER blob, the signature generator catches
the error and returns no signature, and the direct-API request is still sent —
without the `privy-authorization-signature` header.  No `KeyFormatError`
reaches the caller. -/
theorem C7_amended_unparseable_key (sig : KeyMaterial → String) (k : KeyMaterial)
    (fetchOk : Bool) (responseHash : Option Nat) (hk : keyUnparseable k = true) :
    generateAuthorizationSignature sig k = none ∧
    (sendTransactionDirectAPI sig k fetchOk responseHash).signatureHeader = none ∧
    (sendTransactionDirectAPI sig k fetchOk responseHash).fetchAttempted = true := by
  cases k <;> simp_all [keyUnparseable, generateAuthorizationSignature, tryGenerateSignature,
    sendTransactionDirectAPI]

/-- Witness for C7 (amended) at the empty-key input. -/
theorem C7_amended_witness :
    generateAuthorizationSignature (fun _ => "sig") .emptyKey = none ∧
    (sendTransactionDirectAPI (fun _ => "sig") .emptyKey true (some 3)).signatureHeader = none ∧
    (sendTransactionDirectAPI (fun _ => "sig") .emptyKey true (some 3)).fetchAttempted = true :=
  C7_amended_unparseable_key (fun _ => "sig") .emptyKey true (some 3) rfl

/-! ## Claim C8: batch dispatch -/

/-- When every request succeeds, the loop returns the accumulated hashes
followed by the remaining hashes, submitting each remaining request once. -/
theorem sendBatchAux_all_ok (hs : List Nat) :
    ∀ acc, sendBatchAux (hs.map Except.ok) acc = (.ok (acc.reverse ++ hs), hs.length) := by
  induction hs with
  | nil => intro acc; simp [sendBatchAux]
  | cons h t ih =>
    intro acc
    simp [sendBatchAux, ih (h :: acc)]

/-- When the requests are `pre` successes followed by a failure, the loop
stops at the failure: it reports the 1-based index of the failing request and
has submitted exactly `pre.length + 1` requests. -/
theorem sendBatchAux_stops_at_error (e : String) (rest : List (Except String Nat)) :
    ∀ (pre : List Nat) (acc : List Nat),
      sendBatchAux (pre.map Except.ok ++ .error e :: rest) acc =
        (.error ("Batch failed at transaction " ++ toString (acc.length + pre.length + 1)
          ++ ": " ++ e), pre.length + 1) := by
  intro pre
  induction pre with
  | nil => intro acc; simp [sendBatchAux]
  | cons h t ih =>
    intro acc
    simp only [List.map_cons, List.cons_append, sendBatchAux, List.append_eq, ih (h :: acc)]
    have harith : (h :: acc).length + t.length + 1 = acc.length + (h :: t).length + 1 := by
      simp; omega
    rw [harith]
    simp

/-- Claim C8: `sendBatchTransactions` executes the requests strictly
sequentially (the loop is a left-to-right fold over the per-request outcomes);
when all `N` requests succeed it returns exactly one hash per request in
request order after `N` submissions, and when the first failure occurs at the
(1-based) position `pre.length + 1` it aborts with that index after exactly
`pre.length + 1` submissions — the remaining requests are never submitted and
the failed request is not retried. -/
theorem C8_sendBatchTransactions (hs pre : List Nat) (e : String)
    (rest : List (Except String Nat)) :
    sendBatchTransactions (hs.map Except.ok) = (.ok hs, hs.length) ∧
    sendBatchTransactions (pre.map Except.ok ++ .error e :: rest) =
      (.error ("Batch failed at transaction " ++ toString (pre.length + 1) ++ ": " ++ e),
        pre.length + 1) := by
  constructor
  · simpa [sendBatchTransactions] using sendBatchAux_all_ok hs []
  · simpa [sendBatchTransactions] using sendBatchAux_stops_at_error e rest pre []

/-! ## Claim C9: `transferAllBalance` -/

/-- Claim C9: `transferAllBalance` throws on a zero balance; for a native
transfer with a positive gas reserve it throws when the balance does not
exceed the reserve and otherwise sends exactly `balance - keepGasReserve` as a
native transfer; for an ERC-20 transfer it ignores the reserve and sends the
full balance.  In each throwing case the result carries no sent transaction —
the throw happens before `transferFunds` runs. -/
theorem C9_transferAllBalance (send : TxCall → Nat) (balance keepGasReserve : Nat)
    (toAddr : String) (tokenAddress : Option String) :
    (balance = 0 → transferAllBalance send balance toAddr tokenAddress keepGasReserve =
        .error "No balance to transfer") ∧
    (0 < keepGasReserve → balance ≤ keepGasReserve → balance ≠ 0 →
      transferAllBalance send balance toAddr none keepGasReserve =
        .error "Balance is less than or equal to gas reserve") ∧
    (0 < keepGasReserve → keepGasReserve < balance →
      transferAllBalance send balance toAddr none keepGasReserve =
        .ok (send ⟨toAddr, balance - keepGasReserve, .empty⟩,
             [⟨toAddr, balance - keepGasReserve, .empty⟩])) ∧
    (∀ t, balance ≠ 0 →
      transferAllBalance send balance toAddr (some t) keepGasReserve =
        .ok (send ⟨t, 0, .erc20Transfer toAddr balance⟩,
             [⟨t, 0, .erc20Transfer toAddr balance⟩])) := by
  refine ⟨?_, ?_, ?_, ?_⟩
  · intro h; simp [transferAllBalance, h]
  · intro h1 h2 h3
    simp [transferAllBalance, h1, h2, h3]
  · intro h1 h2
    have hb : ¬ balance = 0 := by omega
    have hle : ¬ balance ≤ keepGasReserve := by omega
    simp [transferAllBalance, transferFunds, hb, hle, h1]
  · intro t hb
    simp [transferAllBalance, transferFunds, hb]

/-- Witness for C9 at a native transfer (balance 10, reserve 3) and an ERC-20
transfer (balance 5). -/
theorem C9_witness :
    transferAllBalance (fun _ => 99) 10 "0xU" none 3 =
      .ok (99, [⟨"0xU", 7, .empty⟩]) ∧
    transferAllBalance (fun _ => 99) 5 "0xU" (some "0xT") 3 =
      .ok (99, [⟨"0xT", 0, .erc20Transfer "0xU" 5⟩]) := by
  constructor
  · exact (C9_transferAllBalance (fun _ => 99) 10 3 "0xU" none).2.2.1 (by decide) (by decide)
  · exact (C9_transferAllBalance (fun _ => 99) 5 3 "0xU" (some "0xT")).2.2.2 "0xT" (by decide)

/-! ## Claim C10: `transferFunds` -/

/-- Claim C10: `transferFunds` sends a native transfer (value = amount, empty
calldata, destination = toAddress) exactly when `isNativeToken` is true or no
token address is given; otherwise it sends an ERC-20 `transfer(toAddress,
amount)` call to the token address with value 0.  In both branches it sends
exactly one transaction and returns the session signer's hash for it
unchanged. -/
theorem C10_transferFunds (send : TxCall → Nat) (toAddr : String) (amount : Nat)
    (tokenAddress : Option String) (isNativeToken : Bool) :
    ((isNativeToken = true ∨ tokenAddress = none) →
      transferFunds send toAddr amount tokenAddress isNativeToken =
        (send ⟨toAddr, amount, .empty⟩, [⟨toAddr, amount, .empty⟩])) ∧
    (∀ t, isNativeToken = false → tokenAddress = some t →
      transferFunds send toAddr amount tokenAddress isNativeToken =
        (send ⟨t, 0, .erc20Transfer toAddr amount⟩, [⟨t, 0, .erc20Transfer toAddr amount⟩])) ∧
    (∃ c, transferFunds send toAddr amount tokenAddress isNativeToken = (send c, [c])) := by
  refine ⟨?_, ?_, ?_⟩
  · rintro (h | h)
    · cases tokenAddress <;> simp [transferFunds, h]
    · subst h; simp [transferFunds]
  · rintro t h ht
    subst ht h
    simp [transferFunds]
  · cases tokenAddress with
    | none => exact ⟨_, rfl⟩
    | some t => cases isNativeToken <;> exact ⟨_, rfl⟩

/-- Witness for C10 at an ERC-20 transfer and a native transfer. -/
theorem C10_witness :
    transferFunds (fun _ => 5) "0xU" 9 (some "0xT") false =
      (5, [⟨"0xT", 0, .erc20Transfer "0xU" 9⟩]) ∧
    transferFunds (fun _ => 5) "0xU" 9 none false =
      (5, [⟨"0xU", 9, .empty⟩]) := by
  constructor
  · exact (C10_transferFunds (fun _ => 5) "0xU" 9 (some "0xT") false).2.1 "0xT" rfl rfl
  · exact (C10_transferFunds (fun _ => 5) "0xU" 9 none false).1 (Or.inr rfl)

/-! ## Claim C2: sponsorship failure falls back to the direct path -/

/-- Claim C2: when the sponsorship capability is initialized but the sponsored
attempt fails (no hash returned, or a confirmed receipt whose status is not
success), `sendTransaction` proceeds to the direct path — its outcome is
exactly `directPath`'s outcome, so a sponsorship failure by itself never makes
it throw — and whenever fee estimation, gas estimation and the session-signer
submission succeed and the direct receipt confirms success, it returns the
direct transaction hash (after one direct broadcast). -/
theorem C2_sponsorship_failure_falls_back (env : DispatchEnv) (dh : Nat) (fee : Int) (gas : Nat)
    (hinit : env.sponsorshipInitialized = true)
    (hfail : env.sponsoredResult = none ∨ env.sponsoredReceiptStatus ≠ .success) :
    sendTransaction env false = directPath env ∧
    (env.feeEstimation = .ok fee → env.gasEstimation = .ok gas →
      env.directSubmission = .ok dh → env.directReceiptStatus = .success →
      sendTransaction env false = (.ok dh, 1)) := by
  have hmain : sendTransaction env false = directPath env := by
    rcases hfail with h | h
    · simp [sendTransaction, hinit, h]
    · cases hs : env.sponsoredResult with
      | none => simp [sendTransaction, hinit, hs]
      | some a => simp [sendTransaction, hinit, hs, h]
  refine ⟨hmain, fun h1 h2 h3 h4 => ?_⟩
  rw [hmain]
  simp [directPath, h1, h2, h3, h4]

/-- Witness for C2: sponsored submission returns no hash, direct path
succeeds. -/
theorem C2_witness :
    sendTransaction ⟨true, none, .reverted, .ok 1, .ok 2, .ok 7, .success⟩ false = (.ok 7, 1) :=
  (C2_sponsorship_failure_falls_back ⟨true, none, .reverted, .ok 1, .ok 2, .ok 7, .success⟩
    7 1 2 rfl (Or.inl rfl)).2 rfl rfl rfl rfl

/-! ## Claim C3: the nonce-conflict retry -/

/-- Claim C3: a sponsored submission that fails with a recognized
nonce-conflict error message is retried exactly once (two submission attempts)
after the fixed 2000 ms backoff, while any other error class is not retried at
all; if the retry succeeds the sponsored call resolves the retry's hash and —
with the sponsored receipt confirming success — the whole dispatch returns
that hash with zero direct broadcasts, whatever the direct path would have
done; if the retry also fails, the call resolves `null` (a sponsorship
failure). -/
theorem C3_nonce_conflict_retry (msg : String) (retryAttempt : AttemptResult)
    (hmsg : isNonceConflictError msg = true) :
    (sendSponsoredTransaction true (.err msg) retryAttempt).sendAttempts = 2 ∧
    (sendSponsoredTransaction true (.err msg) retryAttempt).retryDelayMs = 2000 ∧
    (∀ msg2, isNonceConflictError msg2 = false →
      ∀ a2, sendSponsoredTransaction true (.err msg2) a2 = ⟨none, 1, 0⟩) ∧
    (∀ h, retryAttempt = .ok h →
      sendSponsoredTransaction true (.err msg) retryAttempt = ⟨some h, 2, 2000⟩ ∧
      ∀ fee gasE dsub dstat,
        sendTransaction ⟨true, (sendSponsoredTransaction true (.err msg) retryAttempt).result,
          .success, fee, gasE, dsub, dstat⟩ false = (.ok h, 0)) ∧
    (∀ m2, retryAttempt = .err m2 →
      (sendSponsoredTransaction true (.err msg) retryAttempt).result = none) := by
  refine ⟨?_, ?_, ?_, ?_, ?_⟩
  · cases retryAttempt <;> simp [sendSponsoredTransaction, hmsg]
  · cases retryAttempt <;> simp [sendSponsoredTransaction, hmsg]
  · intro msg2 h2 a2
    simp [sendSponsoredTransaction, h2]
  · rintro h rfl
    refine ⟨by simp [sendSponsoredTransaction, hmsg], fun fee gasE dsub dstat => ?_⟩
    simp [sendSponsoredTransaction, sendTransaction, hmsg]
  · rintro m2 rfl
    simp [sendSponsoredTransaction, hmsg]

/-- Witness for C3: first attempt rejects with a nonce message, retry
succeeds with hash 7; the dispatch returns hash 7 without any direct
broadcast. -/
theorem C3_witness :
    (sendSponsoredTransaction true (.err "nonce too low") (.ok 7)).sendAttempts = 2 ∧
    sendSponsoredTransaction true (.err "nonce too low") (.ok 7) = ⟨some 7, 2, 2000⟩ ∧
    sendTransaction ⟨true, (sendSponsoredTransaction true (.err "nonce too low") (.ok 7)).result,
      .success, .ok 1, .ok 2, .ok 3, .reverted⟩ false = (.ok 7, 0) := by
  have h := C3_nonce_conflict_retry "nonce too low" (.ok 7) (by decide)
  exact ⟨h.1, (h.2.2.2.1 7 rfl).1, (h.2.2.2.1 7 rfl).2 (.ok 1) (.ok 2) (.ok 3) .reverted⟩

/-! ## Claim C4: direct receipt failure is terminal -/

/-- Claim C4: whenever the direct path is reached (the caller forced it,
sponsorship is uninitialized, or the sponsored attempt failed) and its mined
receipt has a non-success status, `sendTransaction` throws
`'Transaction failed'` after exactly one direct broadcast attempt — the
failure is terminal and nothing is retried. -/
theorem C4_receipt_failure_terminal (env : DispatchEnv) (forceEOA : Bool) (fee : Int)
    (gas dh : Nat)
    (hf : env.feeEstimation = .ok fee) (hg : env.gasEstimation = .ok gas)
    (hs : env.directSubmission = .ok dh) (hst : env.directReceiptStatus ≠ .success)
    (hreach : forceEOA = true ∨ env.sponsorshipInitialized = false ∨
      env.sponsoredResult = none ∨ env.sponsoredReceiptStatus ≠ .success) :
    sendTransaction env forceEOA = (.error "Transaction failed", 1) := by
  have hdp : directPath env = (.error "Transaction failed", 1) := by
    simp [directPath, hf, hg, hs, hst]
  rcases hreach with h | h | h | h
  · simp [sendTransaction, h, hdp]
  · simp [sendTransaction, h, hdp]
  · cases forceEOA <;> simp [sendTransaction, h, hdp]
  · cases forceEOA <;> cases henv : env.sponsoredResult <;>
      simp [sendTransaction, h, hdp, henv]

/-- Witness for C4: sponsorship uninitialized, direct receipt reverted. -/
theorem C4_witness :
    sendTransaction ⟨false, none, .success, .ok 1, .ok 2, .ok 7, .reverted⟩ false =
      (.error "Transaction failed", 1) :=
  C4_receipt_failure_terminal ⟨false, none, .success, .ok 1, .ok 2, .ok 7, .reverted⟩
    false 1 2 7 rfl rfl rfl (by decide) (Or.inr (Or.inl rfl))

/-! ## Claim C5: job-id recovery from receipt logs -/

/-- Claim C5: `getJobIdFromTx` scans the receipt's logs for the first entry
whose source address equals the configured contract address case-insensitively
and decodes the job id from that log's data (a matching head is taken, a
non-matching head is skipped); a receipt with no log at the contract address
raises `"Failed to get contract logs"`; composed with a successful `createJob`
dispatch, a single log at the contract address whose data encodes 42 yields
`{ txHash, jobId := 42 }`. -/
theorem C5_job_id_recovery (contractAddress : String) (l : EventLog)
    (rest logs : List EventLog) (txHash : Nat) :
    (jsToLowerCase l.address = jsToLowerCase contractAddress →
      getJobIdFromTx contractAddress (l :: rest) = .ok (fromHexNumber l.data)) ∧
    (jsToLowerCase l.address ≠ jsToLowerCase contractAddress →
      getJobIdFromTx contractAddress (l :: rest) = getJobIdFromTx contractAddress rest) ∧
    ((∀ x ∈ logs, jsToLowerCase x.address ≠ jsToLowerCase contractAddress) →
      getJobIdFromTx contractAddress logs = .error "Failed to get contract logs") ∧
    (jsToLowerCase l.address = jsToLowerCase contractAddress → fromHexNumber l.data = 42 →
      createJobResult txHash contractAddress [l] = .ok (txHash, 42)) := by
  refine ⟨?_, ?_, ?_, ?_⟩
  · intro h
    unfold getJobIdFromTx
    rw [List.find?_cons_of_pos _ (by simp [h])]
  · intro h
    unfold getJobIdFromTx
    rw [List.find?_cons_of_neg _ (by simp [h])]
  · intro h
    unfold getJobIdFromTx
    rw [List.find?_eq_none.mpr (by intro x hx; simp [h x hx])]
  · intro h h42
    have h1 : getJobIdFromTx contractAddress [l] = .ok (fromHexNumber l.data) := by
      unfold getJobIdFromTx
      rw [List.find?_cons_of_pos _ (by simp [h])]
    simp [createJobResult, h1, h42, Except.map]

/-- Witness for C5: a matching log whose data encodes 42, and a receipt with
no matching log. -/
theorem C5_witness :
    getJobIdFromTx "0xAbC" [⟨"0xABc", [42]⟩] = .ok 42 ∧
    createJobResult 7 "0xAbC" [⟨"0xaBC", [42]⟩] = .ok (7, 42) ∧
    getJobIdFromTx "0xAbC" [⟨"0xDeF", [42]⟩] = .error "Failed to get contract logs" := by
  refine ⟨?_, ?_, ?_⟩
  · have h := (C5_job_id_recovery "0xAbC" ⟨"0xABc", [42]⟩ [] [] 0).1 (by decide)
    simpa [fromHexNumber] using h
  · exact (C5_job_id_recovery "0xAbC" ⟨"0xaBC", [42]⟩ [] [] 7).2.2.2 (by decide) (by decide)
  · exact (C5_job_id_recovery "0xAbC" ⟨"0xDeF", [42]⟩ [] [⟨"0xDeF", [42]⟩] 0).2.2.1
      (by intro x hx; simp at hx; subst hx; decide)

/-! ## Claim C6: canonicalization — list-level sorting lemmas -/

/-- Inserting a pair permutes: `insertByKey p l` is `p :: l` up to order. -/
theorem insertByKey_perm (p : String × Json) :
    ∀ l, (insertByKey p l).Perm (p :: l) := by
  intro l
  induction l with
  | nil => simp [insertByKey]
  | cons q qs ih =>
    by_cases h : p.1 ≤ q.1
    · simp [insertByKey, h]
    · simp only [insertByKey, if_neg h]
      exact (ih.cons q).trans (List.Perm.swap p q qs)

/-- `sortByKey` permutes its input. -/
theorem sortByKey_perm : ∀ l, (sortByKey l).Perm l := by
  intro l
  induction l with
  | nil => simp [sortByKey]
  | cons p ps ih =>
    exact ((insertByKey_perm p (sortByKey ps)).trans (ih.cons p))

/-- Inserting into a key-sorted list keeps it key-sorted. -/
theorem insertByKey_pairwise (p : String × Json) :
    ∀ l, l.Pairwise (fun a b => a.1 ≤ b.1) →
      (insertByKey p l).Pairwise (fun a b => a.1 ≤ b.1) := by
  intro l
  induction l with
  | nil => intro _; simp [insertByKey]
  | cons q qs ih =>
    intro hl
    rw [List.pairwise_cons] at hl
    by_cases h : p.1 ≤ q.1
    · simp only [insertByKey, if_pos h]
      refine List.Pairwise.cons ?_ (List.Pairwise.cons hl.1 hl.2)
      intro r hr
      rcases List.mem_cons.mp hr with rfl | hr'
      · exact h
      · exact le_trans h (hl.1 r hr')
    · simp only [insertByKey, if_neg h]
      refine List.Pairwise.cons ?_ (ih hl.2)
      intro r hr
      rcases List.mem_cons.mp ((insertByKey_perm p qs).mem_iff.mp hr) with rfl | hr'
      · exact le_of_not_le h
      · exact hl.1 r hr'

/-- `sortByKey` produces a key-sorted list. -/
theorem sortByKey_pairwise : ∀ l, (sortByKey l).Pairwise (fun a b => a.1 ≤ b.1) := by
  intro l
  induction l with
  | nil => simp [sortByKey]
  | cons p ps ih => exact insertByKey_pairwise p _ ih

/-- Sorting a list that is already key-sorted returns it unchanged. -/
theorem sortByKey_of_pairwise :
    ∀ l, l.Pairwise (fun a b : String × Json => a.1 ≤ b.1) → sortByKey l = l := by
  intro l
  induction l with
  | nil => intro _; rfl
  | cons p ps ih =>
    intro h
    rw [List.pairwise_cons] at h
    show insertByKey p (sortByKey ps) = p :: ps
    rw [ih h.2]
    cases ps with
    | nil => rfl
    | cons q qs => simp only [insertByKey, if_pos (h.1 q (by simp))]

/-- A key-sorted list with duplicate-free keys is strictly key-sorted. -/
theorem pairwise_lt_of_nodup :
    ∀ l : List (String × Json), l.Pairwise (fun a b => a.1 ≤ b.1) →
      (l.map Prod.fst).Nodup → l.Pairwise (fun a b => a.1 < b.1) := by
  intro l
  induction l with
  | nil => intro _ _; exact List.Pairwise.nil
  | cons p ps ih =>
    intro hle hnd
    rw [List.pairwise_cons] at hle ⊢
    rw [List.map_cons, List.nodup_cons] at hnd
    refine ⟨fun b hb => lt_of_le_of_ne (hle.1 b hb) ?_, ih hle.2 hnd.2⟩
    intro heq
    exact hnd.1 (by rw [heq]; exact List.mem_map_of_mem Prod.fst hb)

/-- Two key-sorted permutations of each other with duplicate-free keys are
equal: sorting by key has a unique result on real (duplicate-free) objects. -/
theorem sorted_nodup_keys_unique :
    ∀ l₁ l₂ : List (String × Json), l₁.Perm l₂ →
      l₁.Pairwise (fun a b => a.1 ≤ b.1) → l₂.Pairwise (fun a b => a.1 ≤ b.1) →
      (l₁.map Prod.fst).Nodup → l₁ = l₂ := by
  intro l₁ l₂ hp h1 h2 hnd
  have hnd2 : (l₂.map Prod.fst).Nodup := ((hp.map Prod.fst).nodup_iff).mp hnd
  have s1 : List.Sorted (fun a b : String × Json => a.1 < b.1) l₁ :=
    pairwise_lt_of_nodup l₁ h1 hnd
  have s2 : List.Sorted (fun a b : String × Json => a.1 < b.1) l₂ :=
    pairwise_lt_of_nodup l₂ h2 hnd2
  haveI : IsAntisymm (String × Json) (fun a b => a.1 < b.1) :=
    ⟨fun _ _ ha hb => (lt_asymm ha hb).elim⟩
  exact List.eq_of_perm_of_sorted hp s1 s2

/-- `sortObjectFields` is the map that sorts each value (keys untouched). -/
theorem sortObjectFields_eq_map :
    ∀ l, sortObjectFields l = l.map (fun p => (p.1, sortObject p.2)) := by
  intro l
  induction l with
  | nil => rfl
  | cons p fs ih => cases p; simp [sortObjectFields, ih]

/-- `sortObjectList` is the map of `sortObject` over the elements. -/
theorem sortObjectList_eq_map : ∀ l, sortObjectList l = l.map sortObject := by
  intro l
  induction l with
  | nil => rfl
  | cons x xs ih => simp [sortObjectList, ih]

/-- If every value in the list is a `sortObject` fixed point, mapping
`sortObject` over the values changes nothing. -/
theorem sortObjectFields_fixed :
    ∀ l, (∀ p ∈ l, sortObject p.2 = p.2) → sortObjectFields l = l := by
  intro l
  induction l with
  | nil => intro _; rfl
  | cons p fs ih =>
    intro h
    cases p with
    | mk k v =>
      have h1 : sortObject v = v := h (k, v) (by simp)
      simp only [sortObjectFields, h1]
      rw [ih (fun q hq => h q (by simp [hq]))]

/-- `nodupKeys` decides `List.Nodup`. -/
theorem nodupKeys_iff : ∀ l : List String, nodupKeys l = true ↔ l.Nodup := by
  intro l
  induction l with
  | nil => simp [nodupKeys]
  | cons k ks ih => simp [nodupKeys, List.nodup_cons, ih, List.elem_iff]

/-! ## Claim C6: idempotence of `sortObject` -/

mutual

/-- `sortObject` is idempotent. -/
theorem sortObject_idem : ∀ j : Json, sortObject (sortObject j) = sortObject j
  | .null => rfl
  | .bool _ => rfl
  | .num _ => rfl
  | .str _ => rfl
  | .arr xs => by
      simp only [sortObject]
      rw [sortObjectList_idem xs]
  | .obj fs => by
      simp only [sortObject]
      have hvals : ∀ p ∈ sortByKey (sortObjectFields fs), sortObject p.2 = p.2 := fun p hp =>
        sortObjectFields_vals fs p ((sortByKey_perm (sortObjectFields fs)).mem_iff.mp hp)
      rw [sortObjectFields_fixed _ hvals,
        sortByKey_of_pairwise _ (sortByKey_pairwise (sortObjectFields fs))]

/-- Idempotence, mapped over array elements. -/
theorem sortObjectList_idem :
    ∀ xs : List Json, sortObjectList (sortObjectList xs) = sortObjectList xs
  | [] => rfl
  | x :: xs => by
      simp only [sortObjectList]
      rw [sortObject_idem x, sortObjectList_idem xs]

/-- Every value occurring in `sortObjectFields fs` is a `sortObject` fixed
point. -/
theorem sortObjectFields_vals :
    ∀ fs : List (String × Json), ∀ p ∈ sortObjectFields fs, sortObject p.2 = p.2
  | [], p, hp => by simp [sortObjectFields] at hp
  | (k, v) :: fs, p, hp => by
      simp only [sortObjectFields, List.mem_cons] at hp
      rcases hp with rfl | hp'
      · exact sortObject_idem v
      · exact sortObjectFields_vals fs p hp'

end

/-! ## Claim C6: key-order invariance of `sortObject` -/

mutual

/-- On well-formed input, `sortObject` is invariant under reordering object
keys at any nesting depth. -/
theorem keyPerm_sortObject : ∀ x y : Json, KeyPerm x y → wfJson x = true →
    sortObject x = sortObject y
  | .null, y, h, _ => by
      cases y <;> simp [KeyPerm] at h
      rfl
  | .bool a, y, h, _ => by
      cases y <;> simp [KeyPerm] at h
      rw [h]
  | .num a, y, h, _ => by
      cases y <;> simp [KeyPerm] at h
      rw [h]
  | .str a, y, h, _ => by
      cases y <;> simp [KeyPerm] at h
      rw [h]
  | .arr xs, y, h, hwf => by
      cases y <;> simp only [KeyPerm] at h
      case arr ys =>
        have hw : wfJsonList xs = true := by simpa [wfJson] using hwf
        simp only [sortObject]
        rw [keyPermList_sortObjectList xs ys h hw]
  | .obj fs, y, h, hwf => by
      cases y <;> simp only [KeyPerm] at h
      case obj gs =>
        rcases h with ⟨fs', hff, hperm⟩
        have hw : nodupKeys (fs.map Prod.fst) = true ∧ wfJsonFields fs = true := by
          simpa [wfJson] using hwf
        obtain ⟨hsf, hkeys⟩ := keyPermFields_sortObjectFields fs fs' hff hw.2
        simp only [sortObject]
        congr 1
        have e2 : (sortObjectFields fs').Perm (sortObjectFields gs) := by
          rw [sortObjectFields_eq_map, sortObjectFields_eq_map]
          exact hperm.map _
        have e1 : (sortByKey (sortObjectFields fs)).Perm (sortObjectFields gs) := by
          rw [hsf]
          exact (sortByKey_perm _).trans e2
        have hp : (sortByKey (sortObjectFields fs)).Perm (sortByKey (sortObjectFields gs)) :=
          e1.trans (sortByKey_perm _).symm
        have hkeymap : (sortObjectFields fs).map Prod.fst = fs.map Prod.fst := by
          rw [sortObjectFields_eq_map, List.map_map]
          rfl
        have hnd : ((sortByKey (sortObjectFields fs)).map Prod.fst).Nodup := by
          have hnd0 : (fs.map Prod.fst).Nodup := (nodupKeys_iff _).mp hw.1
          have := ((sortByKey_perm (sortObjectFields fs)).map Prod.fst).nodup_iff
          rw [hkeymap] at this
          exact this.mpr hnd0
        exact sorted_nodup_keys_unique _ _ hp (sortByKey_pairwise _) (sortByKey_pairwise _) hnd

/-- Key-order invariance, mapped over array elements. -/
theorem keyPermList_sortObjectList : ∀ xs ys : List Json,
    KeyPermList xs ys → wfJsonList xs = true → sortObjectList xs = sortObjectList ys
  | [], ys, h, _ => by
      cases ys with
      | nil => rfl
      | cons y ys => simp [KeyPermList] at h
  | x :: xs, ys, h, hwf => by
      cases ys with
      | nil => simp [KeyPermList] at h
      | cons y ys =>
        have h' : KeyPerm x y ∧ KeyPermList xs ys := by simpa [KeyPermList] using h
        have hw : wfJson x = true ∧ wfJsonList xs = true := by simpa [wfJsonList] using hwf
        simp only [sortObjectList]
        rw [keyPerm_sortObject x y h'.1 hw.1, keyPermList_sortObjectList xs ys h'.2 hw.2]

/-- Key-order invariance over pointwise-related field lists: sorted values
agree and the key sequences coincide. -/
theorem keyPermFields_sortObjectFields : ∀ fs gs : List (String × Json),
    KeyPermFields fs gs → wfJsonFields fs = true →
    sortObjectFields fs = sortObjectFields gs ∧ fs.map Prod.fst = gs.map Prod.fst
  | [], gs, h, _ => by
      cases gs with
      | nil => exact ⟨rfl, rfl⟩
      | cons q qs => cases q; simp [KeyPermFields] at h
  | (k, v) :: fs, gs, h, hwf => by
      cases gs with
      | nil => simp [KeyPermFields] at h
      | cons q qs =>
        cases q with
        | mk k' w =>
          have h' : k = k' ∧ KeyPerm v w ∧ KeyPermFields fs qs := by
            simpa [KeyPermFields] using h
          have hw : wfJson v = true ∧ wfJsonFields fs = true := by
            simpa [wfJsonFields] using hwf
          obtain ⟨hk, hvw, hrest⟩ := h'
          obtain ⟨ih1, ih2⟩ := keyPermFields_sortObjectFields fs qs hrest hw.2
          subst hk
          simp only [sortObjectFields, List.map_cons]
          exact ⟨by rw [keyPerm_sortObject v w hvw hw.1, ih1], by rw [ih2]⟩

end

/-! ## Claim C6: main statement -/

/-- Claim C6: the canonicalization used for authorization signatures
(`JSON.stringify` after recursively key-sorting with `sortObject`) is
deterministic and idempotent — `sortObject` is a fixed point of itself on
every JSON value, so canonicalizing an already-canonicalized value reproduces
the same canonical string — and any two JSON values that differ only in the
order of object keys (at any nesting depth), with duplicate-free keys as
JavaScript objects guarantee, canonicalize to the identical string. -/
theorem C6_canonicalization (x y : Json) (hwf : wfJson x = true) (hperm : KeyPerm x y) :
    (∀ z : Json, sortObject (sortObject z) = sortObject z ∧
      canonicalJsonString (sortObject z) = canonicalJsonString z) ∧
    canonicalJsonString x = canonicalJsonString y := by
  refine ⟨fun z => ⟨sortObject_idem z, ?_⟩, ?_⟩
  · unfold canonicalJsonString
    rw [sortObject_idem z]
  · unfold canonicalJsonString
    rw [keyPerm_sortObject x y hperm hwf]

/-- Witness for C6 at `x = {"b": 1, "a": "u"}`, `y = {"a": "u", "b": 1}`. -/
theorem C6_witness :
    canonicalJsonString (.obj [("b", .num 1), ("a", .str "u")]) =
    canonicalJsonString (.obj [("a", .str "u"), ("b", .num 1)]) := by
  have hwf : wfJson (.obj [("b", .num 1), ("a", .str "u")]) = true := by
    simp [wfJson, wfJsonFields, nodupKeys]
  have hperm : KeyPerm (.obj [("b", .num 1), ("a", .str "u")])
      (.obj [("a", .str "u"), ("b", .num 1)]) := by
    simp only [KeyPerm]
    refine ⟨[("b", .num 1), ("a", .str "u")], ?_, ?_⟩
    · simp [KeyPermFields, KeyPerm]
    · exact List.Perm.swap _ _ _
  exact (C6_canonicalization _ _ hwf hperm).2
